import Mathlib

/-!
Shallow embedding of the `avocado` ODM layer (src/avocado/src/{coll,doc,ops,ext}.rs)
for verifying its natural-language specification.

Conventions of the embedding:
* BSON values (`bson` crate, an external collaborator) are modelled by the
  inductive `Bson`; floating-point payloads are carried as opaque bit patterns
  (`Nat`) since no verified code computes with them.
* A BSON `Document` (insertion-ordered map with unique keys) is modelled as an
  association list `List (String × Bson)`; `removeEntry` removes the first
  binding of a key, which coincides with map removal under key uniqueness.
* Rust `&mut self` mutation is modelled by explicit state passing: each
  mutating helper returns its result together with the updated document.
* Fallible Rust code returning `Result` is modelled with `Except`.
* The one process-aborting path in the source (the `assert!` in
  `Collection::insert_many`) is modelled explicitly by the `PanicOr` wrapper.
* Remote-store calls are modelled by oracle function parameters; each façade
  function additionally returns the list of calls it issued, so "issues no
  remote call" is a provable statement.
-/

set_option autoImplicit false

namespace Avocado

/-- `bson::ordered::ValueAccessError`: why a typed getter failed. -/
inductive ValueAccessError where
  | NotPresent
  | UnexpectedType
  deriving DecidableEq, Repr

/-- Error kinds of the avocado error type (spec §7 taxonomy; names follow
`error::ErrorKind` as used by `src/avocado/src/{coll,ext}.rs` and its tests). -/
inductive ErrorKind where
  | MissingId
  | BsonDecoding
  | MissingDocumentField
  | IllTypedDocumentField
  | InfrastructureFailure
  deriving DecidableEq, Repr

/-- A remote write exception / bulk write exception payload, kept abstract:
only its identity matters to the verified properties. -/
structure WriteFailure where
  message : String
  deriving DecidableEq, Repr

/-- BSON binary subtypes; only `Generic` is distinguished by the code. -/
inductive BinarySubtype where
  | generic
  | other (code : Nat)
  deriving DecidableEq, Repr

/-- BSON values (`bson` crate v0.13 variants used by the repository). -/
inductive Bson where
  | floatingPoint (bits : Nat)
  | string (s : String)
  | array (elems : List Bson)
  | document (entries : List (String × Bson))
  | boolean (b : Bool)
  | null
  | regExp (pat : String) (opts : String)
  | i32 (n : Int)
  | i64 (n : Int)
  | timeStamp (n : Int)
  | binary (subtype : BinarySubtype) (bytes : List Nat)
  | objectId (bytes : List Nat)
  | utcDatetime (millis : Int)
  | symbol (s : String)

/-- A BSON document: insertion-ordered key/value pairs. -/
abbrev Document := List (String × Bson)

/-- The cause attached to an error via `Error::with_cause`. -/
inductive ErrorCause where
  | valueAccess (e : ValueAccessError)
  | write (e : WriteFailure)
  | bulkWrite (e : WriteFailure)
  deriving DecidableEq, Repr

/-- The avocado error type (`error::Error`, re-exported as `AvocadoError`):
an error kind, a human-readable message, and an optional cause. -/
structure AvoError where
  kind : ErrorKind
  message : String
  cause : Option ErrorCause := none
  deriving DecidableEq, Repr

/-- `LinkedHashMap::get`: first (= unique) binding of `key`. -/
def getVal : Document → String → Option Bson
  | [], _ => none
  | (k, v) :: rest, key => if k = key then some v else getVal rest key

/-- `LinkedHashMap::contains_key`. -/
def containsKey (d : Document) (key : String) : Bool :=
  (getVal d key).isSome

/-- `LinkedHashMap::remove`: removes the binding of `key` (first occurrence)
and returns it; the document is otherwise unchanged. -/
def removeEntry : Document → String → Option Bson × Document
  | [], _ => (none, [])
  | (k, v) :: rest, key =>
    if k = key then (some v, rest)
    else
      let (r, rest') := removeEntry rest key
      (r, (k, v) :: rest')

/-! ### `src/avocado/src/ext.rs`: `DocumentExt` removal helpers -/

/-- Modelled from the spec: the repository's `error.rs` is not under `src/`;
per spec §7 (and the repository's own `ext.rs` tests) `Error::with_cause`
classifies a `ValueAccessError` cause as `MissingDocumentField` when the key
was absent and `IllTypedDocumentField` when it held a value of the wrong kind. -/
def kindOfAccessError : ValueAccessError → ErrorKind
  | .NotPresent => .MissingDocumentField
  | .UnexpectedType => .IllTypedDocumentField

/-- `ext::removal_error`: error for a missing or ill-typed key-value pair. -/
def removal_error (α : Type) (key ty : String) (cause : ValueAccessError) :
    Except AvoError α :=
  .error
    { kind := kindOfAccessError cause
      message := "error removing " ++ ty ++ " value for key `" ++ key ++ "`"
      cause := some (.valueAccess cause) }

/-- `DocumentExt::try_remove`: `self.remove(key).ok_or_else(.. NotPresent ..)`. -/
def try_remove (d : Document) (key : String) : Except AvoError Bson × Document :=
  match removeEntry d key with
  | (some v, d') => (.ok v, d')
  | (none, d') =>
    (.error
      { kind := kindOfAccessError .NotPresent
        message := "key `" ++ key ++ "` was not found in the document"
        cause := some (.valueAccess .NotPresent) }, d')

/-- Shape test corresponding to `bson`'s `Document::get_bool`. -/
def Bson.isBoolean : Bson → Bool
  | .boolean _ => true
  | _ => false

/-- Shape test corresponding to `bson`'s `Document::get_i32`. -/
def Bson.isI32 : Bson → Bool
  | .i32 _ => true
  | _ => false

/-- Shape test corresponding to `bson`'s `Document::get_i64`. -/
def Bson.isI64 : Bson → Bool
  | .i64 _ => true
  | _ => false

/-- Shape test corresponding to `bson`'s `Document::get_f64`. -/
def Bson.isFloatingPoint : Bson → Bool
  | .floatingPoint _ => true
  | _ => false

/-- Shape test corresponding to `bson`'s `Document::get_str`. -/
def Bson.isString : Bson → Bool
  | .string _ => true
  | _ => false

/-- Shape test corresponding to `bson`'s `Document::get_array`. -/
def Bson.isArray : Bson → Bool
  | .array _ => true
  | _ => false

/-- Shape test corresponding to `bson`'s `Document::get_document`. -/
def Bson.isDocument : Bson → Bool
  | .document _ => true
  | _ => false

/-- Shape test corresponding to `bson`'s `Document::get_object_id`. -/
def Bson.isObjectId : Bson → Bool
  | .objectId _ => true
  | _ => false

/-- Shape test corresponding to `bson`'s `Document::get_utc_datetime`. -/
def Bson.isUtcDatetime : Bson → Bool
  | .utcDatetime _ => true
  | _ => false

/-- Shape test corresponding to `bson`'s `Document::get_time_stamp`. -/
def Bson.isTimeStamp : Bson → Bool
  | .timeStamp _ => true
  | _ => false

/-- Shape test corresponding to `bson`'s `Document::get_binary_generic`. -/
def Bson.isGenericBinary : Bson → Bool
  | .binary .generic _ => true
  | _ => false

/-- `bson`'s `Document::get_<ty>` error behaviour: `None` when the getter
succeeds, `Some NotPresent` when the key is absent, `Some UnexpectedType`
when the value has the wrong shape. -/
def getChecked (isTy : Bson → Bool) (d : Document) (key : String) :
    Option ValueAccessError :=
  match getVal d key with
  | some v => if isTy v then none else some .UnexpectedType
  | none => some .NotPresent

/-- The common body of the typed `DocumentExt::remove_<ty>` helpers:
`match self.get_<ty>(key) { Ok(_) => self.try_remove(key),
Err(cause) => removal_error(key, ty, cause) }`. -/
def removeChecked (isTy : Bson → Bool) (ty : String) (d : Document)
    (key : String) : Except AvoError Bson × Document :=
  match getChecked isTy d key with
  | none => try_remove d key
  | some cause => (removal_error Bson key ty cause, d)

/-- `DocumentExt::remove_bool`. -/
def remove_bool : Document → String → Except AvoError Bson × Document :=
  removeChecked Bson.isBoolean "bool"

/-- `DocumentExt::remove_i32`. -/
def remove_i32 : Document → String → Except AvoError Bson × Document :=
  removeChecked Bson.isI32 "i32"

/-- `DocumentExt::remove_i64`. -/
def remove_i64 : Document → String → Except AvoError Bson × Document :=
  removeChecked Bson.isI64 "i64"

/-- `DocumentExt::remove_f64`. -/
def remove_f64 : Document → String → Except AvoError Bson × Document :=
  removeChecked Bson.isFloatingPoint "f64"

/-- `DocumentExt::remove_str`. -/
def remove_str : Document → String → Except AvoError Bson × Document :=
  removeChecked Bson.isString "string"

/-- `DocumentExt::remove_array`. -/
def remove_array : Document → String → Except AvoError Bson × Document :=
  removeChecked Bson.isArray "array"

/-- `DocumentExt::remove_document`. -/
def remove_document : Document → String → Except AvoError Bson × Document :=
  removeChecked Bson.isDocument "document"

/-- `DocumentExt::remove_object_id`. -/
def remove_object_id : Document → String → Except AvoError Bson × Document :=
  removeChecked Bson.isObjectId "ObjectID"

/-- `DocumentExt::remove_datetime`. -/
def remove_datetime : Document → String → Except AvoError Bson × Document :=
  removeChecked Bson.isUtcDatetime "DateTime"

/-- `DocumentExt::remove_timestamp`. -/
def remove_timestamp : Document → String → Except AvoError Bson × Document :=
  removeChecked Bson.isTimeStamp "timestamp"

/-- `DocumentExt::remove_generic_binary`. -/
def remove_generic_binary : Document → String → Except AvoError Bson × Document :=
  removeChecked Bson.isGenericBinary "generic binary"

/-- `DocumentExt::remove_number`: tries `remove_i32`, `remove_i64`,
`remove_f64` in turn; if all fail, classifies by `contains_key`. -/
def remove_number (d : Document) (key : String) :
    Except AvoError Bson × Document :=
  match remove_i32 d key with
  | (.ok x, d1) => (.ok x, d1)
  | (.error _, d1) =>
    match remove_i64 d1 key with
    | (.ok x, d2) => (.ok x, d2)
    | (.error _, d2) =>
      match remove_f64 d2 key with
      | (.ok x, d3) => (.ok x, d3)
      | (.error _, d3) =>
        let cause :=
          if containsKey d3 key then ValueAccessError.UnexpectedType
          else ValueAccessError.NotPresent
        (removal_error Bson key "numeric" cause, d3)

/-- `DocumentExt::remove_inner_doc`: note that it performs `self.remove(key)`
first, so the entry is taken out of the document even when its value then
turns out not to be an embedded document. -/
def remove_inner_doc (d : Document) (key : String) :
    Except AvoError Document × Document :=
  match removeEntry d key with
  | (some (Bson.document inner), d') => (.ok inner, d')
  | (some _, d') => (removal_error Document key "document" .UnexpectedType, d')
  | (none, d') => (removal_error Document key "document" .NotPresent, d')

/-! ### `src/avocado/src/coll.rs`: raw store result shapes and outcome types -/

/-- A write concern, kept abstract: the façade only forwards it. -/
structure WriteConcern where
  tag : Nat
  deriving DecidableEq, Repr

/-- `mongodb::results::UpdateResult` (the richer variant with an embedded
write exception, the one this repository's `coll.rs` consumes). -/
structure UpdateResult where
  matched_count : Int
  modified_count : Int
  upserted_id : Option Bson
  write_exception : Option WriteFailure

/-- `coll::UpdateOneResult`: outcome of a successful single update. -/
structure UpdateOneResult where
  matched : Bool
  modified : Bool
  deriving DecidableEq, Repr

/-- `UpdateOneResult::from_raw`: fails (surfacing the write exception as
cause) when one is present, otherwise reports matched/modified flags. -/
def UpdateOneResult.from_raw (result : UpdateResult) :
    Except AvoError UpdateOneResult :=
  match result.write_exception with
  | some error =>
    .error
      { kind := .InfrastructureFailure
        message := "couldn't perform single update"
        cause := some (.write error) }
  | none =>
    .ok
      { matched := decide (0 < result.matched_count)
        modified := decide (0 < result.modified_count) }

/-- `coll::UpsertOneResult`: outcome of a successful single upsert. -/
structure UpsertOneResult (Id : Type) where
  matched : Bool
  modified : Bool
  upserted_id : Option Id

/-- Modelled from the spec: the repository's `bsn.rs` (not under `src/`)
supplies `Bson::try_into_doc`, converting a BSON value into a document and
failing with a decoding error on shape mismatch (spec §6: "deserialize …
fails with a decoding error on shape mismatch"). -/
def try_into_doc : Bson → Except AvoError Document
  | .document d => .ok d
  | _ =>
    .error
      { kind := .BsonDecoding
        message := "value is not a Document"
        cause := none }

/-- The `upserted_id` processing step inside `UpsertOneResult::from_raw`:
convert the raw `upserted` value into a document, take out its `_id` field
(failing with `MissingId` if absent), and decode it via `from_bson`
(modelled by the `decode` parameter; `None` models a decoding failure). -/
def processUpserted (Id : Type) (decode : Bson → Option Id) :
    Option Bson → Except AvoError (Option Id)
  | some bson => do
    let doc ← try_into_doc bson
    match removeEntry doc "_id" with
    | (some id_bson, _) =>
      match decode id_bson with
      | some id => .ok (some id)
      | none =>
        .error
          { kind := .BsonDecoding
            message := "can't deserialize upserted ID"
            cause := none }
    | (none, _) =>
      .error
        { kind := .MissingId
          message := "no `_id` found in `WriteResult.upserted`"
          cause := none }
  | none => .ok none

/-- `UpsertOneResult::from_raw`: processes `upserted_id` (with early-return
`?` operators) and only afterwards checks for an embedded write exception. -/
def UpsertOneResult.from_raw (Id : Type) (decode : Bson → Option Id)
    (result : UpdateResult) : Except AvoError (UpsertOneResult Id) := do
  let matched := decide (0 < result.matched_count)
  let modified := decide (0 < result.modified_count)
  let upserted_id ← processUpserted Id decode result.upserted_id
  match result.write_exception with
  | some error =>
    .error
      { kind := .InfrastructureFailure
        message := "couldn't perform single upsert"
        cause := some (.write error) }
  | none => .ok { matched, modified, upserted_id }

/-- The write-exception check shared by `update_one_internal`,
`update_entity_internal`, `update_many_internal` etc.: fail surfacing the
exception as cause if one is embedded in the raw result. -/
def checkWriteException (message : String) (result : UpdateResult) :
    Except AvoError UpdateResult :=
  match result.write_exception with
  | some error =>
    .error
      { kind := .InfrastructureFailure
        message := message
        cause := some (.write error) }
  | none => .ok result

/-- `mongodb::options::UpdateOptions` as built by the façade. -/
structure UpdateOptionsM where
  upsert : Option Bool
  write_concern : Option WriteConcern
  deriving DecidableEq, Repr

/-- One `replace_one` call issued to the remote store. -/
structure ReplaceOneCall where
  filter : Document
  replacement : Document
  options : UpdateOptionsM

/-- `Collection::update_entity_internal`: serialize the entity (the
serialization outcome is the `serialized` parameter), take its `_id` field
out of the document (failing with `MissingId` when absent), issue a
`replace_one` with the identifier filter and the requested upsert flag, and
fail surfacing any embedded write exception. Returns the processed raw
result together with the list of store calls issued. -/
def update_entity_internal (name : String) (updateConcern : WriteConcern)
    (serialized : Except AvoError Document) (upsert : Bool)
    (store : ReplaceOneCall → UpdateResult) :
    Except AvoError UpdateResult × List ReplaceOneCall :=
  match serialized with
  | .error e => (.error e, [])
  | .ok document =>
    match removeEntry document "_id" with
    | (none, _) =>
      (.error
        { kind := .MissingId
          message := "No `_id` in entity of type " ++ name
          cause := none }, [])
    | (some id, document') =>
      let call : ReplaceOneCall :=
        { filter := [("_id", id)]
          replacement := document'
          options := { upsert := some upsert, write_concern := some updateConcern } }
      let result := store call
      let message := "error in " ++ name ++ "::"
        ++ (if upsert then "upsert" else "replace") ++ "_entity(...)"
      (checkWriteException message result, [call])

/-- `Collection::replace_entity`: `update_entity_internal` with the upsert
flag `false`, then `UpdateOneResult::from_raw`. -/
def replace_entity (name : String) (updateConcern : WriteConcern)
    (serialized : Except AvoError Document)
    (store : ReplaceOneCall → UpdateResult) :
    Except AvoError UpdateOneResult × List ReplaceOneCall :=
  let (res, calls) := update_entity_internal name updateConcern serialized false store
  (res.bind UpdateOneResult.from_raw, calls)

/-- `Collection::upsert_entity`: `update_entity_internal` with the upsert
flag `true`, then `UpsertOneResult::from_raw`. -/
def upsert_entity (Id : Type) (decode : Bson → Option Id) (name : String)
    (updateConcern : WriteConcern) (serialized : Except AvoError Document)
    (store : ReplaceOneCall → UpdateResult) :
    Except AvoError (UpsertOneResult Id) × List ReplaceOneCall :=
  let (res, calls) := update_entity_internal name updateConcern serialized true store
  (res.bind (UpsertOneResult.from_raw Id decode), calls)

/-- `Collection::upsert_one`'s raw-result processing path:
`update_one_internal` checks the write exception first, then the result is
converted by `UpsertOneResult::from_raw`. -/
def upsert_one_process (Id : Type) (decode : Bson → Option Id)
    (message : String) (result : UpdateResult) :
    Except AvoError (UpsertOneResult Id) :=
  (checkWriteException message result).bind (UpsertOneResult.from_raw Id decode)

/-! ### `find_one_and_replace` -/

/-- `mongodb::options::ReturnDocument`. -/
inductive ReturnDocument where
  | Before
  | After
  deriving DecidableEq, Repr

/-- `mongodb::options::FindOptions` (the fields consumed by the façade). -/
structure FindOptions where
  max_time_ms : Option Int
  projection : Option Document
  sort : Option Document

/-- `mongodb::options::FindOneAndUpdateOptions`; `Default::default()` sets
every field to `none`. -/
structure FindOneAndUpdateOptions where
  return_document : Option ReturnDocument := none
  max_time_ms : Option Int := none
  projection : Option Document := none
  sort : Option Document := none
  upsert : Option Bool := none
  write_concern : Option WriteConcern := none

/-- One `find_one_and_replace` call issued to the remote store. -/
structure FindOneAndReplaceCall where
  filter : Document
  replacement : Document
  options : FindOneAndUpdateOptions

/-- `Collection::find_one_and_replace`: builds options with
`return_document: Some(Before)` and `upsert: Some(false)` (the rest from the
query's options and `Default::default()`), serializes the replacement,
issues the call and transforms + deserializes the returned pre-replacement
document if any. Returns the outcome and the list of store calls issued. -/
def find_one_and_replace (Out : Type) (filter : Document)
    (query_options : FindOptions) (transform : Document → Except AvoError Bson)
    (deserialize : Bson → Except AvoError Out)
    (serializedReplacement : Except AvoError Document)
    (store : FindOneAndReplaceCall → Option Document) :
    Except AvoError (Option Out) × List FindOneAndReplaceCall :=
  let find_replace_options : FindOneAndUpdateOptions :=
    { return_document := some .Before
      max_time_ms := query_options.max_time_ms
      projection := query_options.projection
      sort := query_options.sort
      upsert := some false }
  match serializedReplacement with
  | .error e => (.error e, [])
  | .ok doc =>
    let call : FindOneAndReplaceCall :=
      { filter := filter, replacement := doc, options := find_replace_options }
    let res :=
      match store call with
      | some document => do
        let transformed ← transform document
        let out ← deserialize transformed
        .ok (some out)
      | none => .ok none
    (res, [call])

/-! ### `Collection::insert_many` -/

/-- A computation that either aborts the process (the `assert!` in
`Collection::insert_many`) or produces a value. -/
inductive PanicOr (α : Type) where
  | panicked (msg : String)
  | ok (a : α)

/-- Whether a `PanicOr` computation aborted the process. -/
def PanicOr.isPanicked {α : Type} : PanicOr α → Bool
  | .panicked _ => true
  | .ok _ => false

/-- The position → identifier map built by `insert_many`
(`BTreeMap<u64, Result<Uid<T>, Bson>>`, as a sorted association list):
`Sum.inl` is a decoded identifier, `Sum.inr` the raw undecoded BSON value. -/
abbrev IdsMap (Id : Type) := List (Nat × (Id ⊕ Bson))

/-- `BTreeMap::insert`: sorted insertion, overwriting an existing key. -/
def btreeInsert {α : Type} : List (Nat × α) → Nat → α → List (Nat × α)
  | [], k, v => [(k, v)]
  | (k', v') :: rest, k, v =>
    if k < k' then (k, v) :: (k', v') :: rest
    else if k = k' then (k, v) :: rest
    else (k', v') :: btreeInsert rest k v

/-- One entry of the map: `from_bson(id.clone()).map_err(|_| id)` —
a decoded identifier on success, the raw BSON value on decoding failure. -/
def decodeEntry {Id : Type} (decode : Bson → Option Id) (b : Bson) : Id ⊕ Bson :=
  match decode b with
  | some id => .inl id
  | none => .inr b

/-- The loop of `insert_many`'s ID collection: for each `(i, id)` pair
reported by the store, `assert!(i >= 0, ...)` (process abort on a negative
index!) and insert `(i as u64, decode result)` into the accumulating map. -/
def buildIdsGo {Id : Type} (decode : Bson → Option Id) :
    IdsMap Id → List (Int × Bson) → PanicOr (IdsMap Id)
  | acc, [] => .ok acc
  | acc, (i, b) :: rest =>
    if 0 ≤ i then
      buildIdsGo decode (btreeInsert acc i.toNat (decodeEntry decode b)) rest
    else .panicked ("negative index " ++ toString i ++ " for id")

/-- `insert_many`'s position → identifier map construction. -/
def buildIds {Id : Type} (decode : Bson → Option Id)
    (pairs : List (Int × Bson)) : PanicOr (IdsMap Id) :=
  buildIdsGo decode [] pairs

/-- The same map construction without the aborting assertion; it agrees with
`buildIds` whenever every reported index is non-negative. -/
def buildIdsTotalGo {Id : Type} (decode : Bson → Option Id) :
    IdsMap Id → List (Int × Bson) → IdsMap Id
  | acc, [] => acc
  | acc, (i, b) :: rest =>
    buildIdsTotalGo decode (btreeInsert acc i.toNat (decodeEntry decode b)) rest

/-- Total variant of `buildIds`. -/
def buildIdsTotal {Id : Type} (decode : Bson → Option Id)
    (pairs : List (Int × Bson)) : IdsMap Id :=
  buildIdsTotalGo decode [] pairs

/-- `mongodb`'s raw bulk-insert result: optional per-position identifiers
and an optional embedded bulk write exception. -/
structure InsertManyRawResult where
  inserted_ids : Option (List (Int × Bson))
  bulk_write_exception : Option WriteFailure

/-- An `insert_many` error: the error itself plus the optional
position → identifier map attached as `InsertManyErrorContext` diagnostic
context. -/
structure InsertManyError (Id : Type) where
  err : AvoError
  context : Option (IdsMap Id)

/-- `ids_res` collection inside `insert_many`: succeed with the fully
decoded map iff every entry decoded, short-circuiting at the first raw
(undecoded) entry. -/
def collectIds {Id : Type} : IdsMap Id → Except Bson (List (Nat × Id))
  | [] => .ok []
  | (i, .inl id) :: rest =>
    match collectIds rest with
    | .ok m => .ok ((i, id) :: m)
    | .error b => .error b
  | (_, .inr b) :: _ => .error b

/-- Whether every entry of the map carries a decoded identifier. -/
def allDecoded {Id : Type} (ids : IdsMap Id) : Bool :=
  ids.all fun p => p.2.isLeft

/-- The fully decoded sub-map (keeps only decoded entries, in order). -/
def decodedOf {Id : Type} : IdsMap Id → List (Nat × Id)
  | [] => []
  | (i, .inl id) :: rest => (i, id) :: decodedOf rest
  | (_, .inr _) :: rest => decodedOf rest

/-- `bsn::serialize_documents`: serialize every entity, failing on the
first serialization error. -/
def serializeDocuments {α : Type} (serialize : α → Except AvoError Document) :
    List α → Except AvoError (List Document)
  | [] => .ok []
  | x :: rest =>
    match serialize x with
    | .error e => .error e
    | .ok d =>
      match serializeDocuments serialize rest with
      | .error e => .error e
      | .ok ds => .ok (d :: ds)

/-- `insert_many`'s processing of the store's raw bulk result: build the
position → identifier map (aborting on a negative reported index), then
(1) fail with the bulk write exception as cause and the map as context if
one is present; (2) succeed with the fully decoded map if exactly one ID was
reported per document and all decoded; (3) fail with `BsonDecoding` and the
mixed map as context if the count matches but some ID failed to decode;
(4) fail with `MissingId` and the map as context if the count differs. -/
def processInsertMany (Id : Type) (decode : Bson → Option Id) (name : String)
    (n_docs : Nat) (result : InsertManyRawResult) :
    PanicOr (Except (InsertManyError Id) (List (Nat × Id))) :=
  let message := "error in " ++ name ++ "::insert_many()"
  match buildIds decode (result.inserted_ids.getD []) with
  | .panicked m => .panicked m
  | .ok ids =>
    .ok <|
      match result.bulk_write_exception with
      | some error =>
        .error
          { err :=
              { kind := .InfrastructureFailure
                message := message
                cause := some (.bulkWrite error) }
            context := some ids }
      | none =>
        if ids.length = n_docs then
          match collectIds ids with
          | .ok m => .ok m
          | .error _ =>
            .error
              { err :=
                  { kind := .BsonDecoding
                    message := message ++ ": can't deserialize some IDs"
                    cause := none }
                context := some ids }
        else
          .error
            { err :=
                { kind := .MissingId
                  message := message ++ ": " ++ toString n_docs
                    ++ " documents given, but " ++ toString ids.length
                    ++ " IDs returned"
                  cause := none }
              context := some ids }

/-- `Collection::insert_many`: count and serialize the entities (a
serialization failure carries no context map), succeed trivially with an
empty map for zero entities without touching the store, otherwise issue the
bulk insert and process its raw result. The second component is the list of
bulk-insert calls issued to the store. -/
def insert_many {α : Type} (Id : Type) (decode : Bson → Option Id)
    (serialize : α → Except AvoError Document) (name : String)
    (entities : List α) (store : List Document → InsertManyRawResult) :
    PanicOr (Except (InsertManyError Id) (List (Nat × Id))) × List (List Document) :=
  let n_docs := entities.length
  match serializeDocuments serialize entities with
  | .error e => (.ok (.error { err := e, context := none }), [])
  | .ok docs =>
    if n_docs = 0 then (.ok (.ok []), [])
    else
      (processInsertMany Id decode name n_docs (store docs), [docs])

/-! ### `src/avocado/src/ops.rs`: operation traits and their `&Q` impls

A Rust operation trait, at a fixed operation value, is a record of the
values its methods produce (plus the associated `Output` type and the
`FIELD` constant where the trait has them); transform methods are function
fields. The blanket `impl … for &Q` delegates each method to `(**self)`, so
it is embedded as a function rebuilding the record field by field — exactly
the delegation the source performs. -/

/-- `mongodb::options::CountOptions`, kept abstract. -/
structure CountOptions where
  tag : Nat
  deriving DecidableEq, Repr

/-- `mongodb::options::DistinctOptions`, kept abstract. -/
structure DistinctOptions where
  tag : Nat
  deriving DecidableEq, Repr

/-- `mongodb::options::AggregateOptions`, kept abstract. -/
structure AggregateOptions where
  tag : Nat
  deriving DecidableEq, Repr

/-- The `Count<T>` trait at a fixed operation value: `filter()`, `options()`. -/
structure CountOps where
  filter : Document
  options : CountOptions

/-- `impl<T: Doc, Q: Count<T>> Count<T> for &Q`: every method delegates to
`(**self)`. -/
def refCountOps (q : CountOps) : CountOps :=
  { filter := q.filter, options := q.options }

/-- The `Distinct<T>` trait at a fixed operation value: the associated
`Output` type, `FIELD`, `filter()`, `transform` and `options()`. -/
structure DistinctOps (Output : Type) where
  FIELD : String
  filter : Document
  transform : Bson → Except AvoError Bson
  options : DistinctOptions

/-- `impl<T: Doc, Q: Distinct<T>> Distinct<T> for &Q`. -/
def refDistinctOps (Output : Type) (q : DistinctOps Output) : DistinctOps Output :=
  { FIELD := q.FIELD
    filter := q.filter
    transform := fun bson => q.transform bson
    options := q.options }

/-- The `Pipeline<T>` trait at a fixed operation value: the associated
`Output` type, `stages()`, `transform` and `options()`. -/
structure PipelineOps (Output : Type) where
  stages : List Document
  transform : Document → Except AvoError Bson
  options : AggregateOptions

/-- `impl<T: Doc, P: Pipeline<T>> Pipeline<T> for &P`. -/
def refPipelineOps (Output : Type) (q : PipelineOps Output) : PipelineOps Output :=
  { stages := q.stages
    transform := fun doc => q.transform doc
    options := q.options }

/-- The `Query<T>` trait at a fixed operation value. -/
structure QueryOps (Output : Type) where
  filter : Document
  transform : Document → Except AvoError Bson
  options : FindOptions

/-- `impl<T: Doc, Q: Query<T>> Query<T> for &Q`. -/
def refQueryOps (Output : Type) (q : QueryOps Output) : QueryOps Output :=
  { filter := q.filter
    transform := fun doc => q.transform doc
    options := q.options }

/-- The `Update<T>` trait at a fixed operation value. -/
structure UpdateOps where
  filter : Document
  update : Document
  options : WriteConcern

/-- `impl<T: Doc, U: Update<T>> Update<T> for &U`. -/
def refUpdateOps (q : UpdateOps) : UpdateOps :=
  { filter := q.filter, update := q.update, options := q.options }

/-- The `Upsert<T>` trait at a fixed operation value. -/
structure UpsertOps where
  filter : Document
  upsert : Document
  options : WriteConcern

/-- `impl<T: Doc, U: Upsert<T>> Upsert<T> for &U`. -/
def refUpsertOps (q : UpsertOps) : UpsertOps :=
  { filter := q.filter, upsert := q.upsert, options := q.options }

/-- The `Delete<T>` trait at a fixed operation value. -/
structure DeleteOps where
  filter : Document
  options : WriteConcern

/-- `impl<T: Doc, Q: Delete<T>> Delete<T> for &Q`. -/
def refDeleteOps (q : DeleteOps) : DeleteOps :=
  { filter := q.filter, options := q.options }

/-- The `FindAndUpdate<T>` trait at a fixed operation value. -/
structure FindAndUpdateOps (Output : Type) where
  filter : Document
  update : Document
  transform : Document → Except AvoError Bson
  options : FindOneAndUpdateOptions

/-- `impl<T: Doc, U: FindAndUpdate<T>> FindAndUpdate<T> for &U`. -/
def refFindAndUpdateOps (Output : Type) (q : FindAndUpdateOps Output) :
    FindAndUpdateOps Output :=
  { filter := q.filter
    update := q.update
    transform := fun raw => q.transform raw
    options := q.options }

/-! ### Auxiliary definitions for concrete witnesses -/

/-- A sample identifier decoder for witnesses: `from_bson::<i32-backed Uid>`,
succeeding exactly on `Bson::I32`. -/
def bsonIdDecode : Bson → Option Int
  | .i32 n => some n
  | _ => none

/-! ## Helper lemmas -/

/-- `d'` arises from `d` by removing exactly the first binding of `key`
(whose value was `v`): everything before and after that binding is kept,
in order. -/
def RemovesExactly (d : Document) (key : String) (v : Bson) (d' : Document) : Prop :=
  ∃ pre post, d = pre ++ (key, v) :: post ∧ d' = pre ++ post ∧ ∀ p ∈ pre, p.1 ≠ key

theorem removeEntry_some {d : Document} {key : String} {v : Bson} {d' : Document}
    (h : removeEntry d key = (some v, d')) : RemovesExactly d key v d' := by
  induction d generalizing d' with
  | nil => simp [removeEntry] at h
  | cons hd tl ih =>
    obtain ⟨k, w⟩ := hd
    rcases hrem : removeEntry tl key with ⟨r, rest'⟩
    simp only [removeEntry, hrem] at h
    split_ifs at h with hk
    · rw [Prod.mk.injEq, Option.some.injEq] at h
      obtain ⟨hv, hd'⟩ := h
      subst hk; subst hv; subst hd'
      exact ⟨[], tl, rfl, rfl, by simp⟩
    · rw [Prod.mk.injEq] at h
      obtain ⟨hr, hd'⟩ := h
      subst hr; subst hd'
      obtain ⟨pre, post, htl, hrest', hpre⟩ := ih hrem
      refine ⟨(k, w) :: pre, post, by simp [htl], by simp [hrest'], ?_⟩
      intro p hp
      rcases List.mem_cons.mp hp with h | h
      · cases h; exact hk
      · exact hpre p h

theorem removeEntry_none {d : Document} {key : String} {d' : Document}
    (h : removeEntry d key = (none, d')) : d' = d ∧ getVal d key = none := by
  induction d generalizing d' with
  | nil =>
    simp only [removeEntry, Prod.mk.injEq] at h
    exact ⟨h.2.symm, rfl⟩
  | cons hd tl ih =>
    obtain ⟨k, w⟩ := hd
    rcases hrem : removeEntry tl key with ⟨r, rest'⟩
    simp only [removeEntry, hrem] at h
    split_ifs at h with hk
    · simp at h
    · rw [Prod.mk.injEq] at h
      obtain ⟨hr, hd'⟩ := h
      subst hr; subst hd'
      obtain ⟨h1, h2⟩ := ih hrem
      exact ⟨by simp [h1], by simp [getVal, if_neg hk, h2]⟩

theorem removeEntry_of_getVal_none {d : Document} {key : String}
    (h : getVal d key = none) : removeEntry d key = (none, d) := by
  induction d with
  | nil => rfl
  | cons hd tl ih =>
    obtain ⟨k, w⟩ := hd
    by_cases hk : k = key
    · subst hk; simp [getVal] at h
    · simp only [getVal, if_neg hk] at h
      simp [removeEntry, if_neg hk, ih h]

theorem getVal_of_removeEntry_some {d : Document} {key : String} {v : Bson}
    {d' : Document} (h : removeEntry d key = (some v, d')) :
    getVal d key = some v := by
  induction d generalizing d' with
  | nil => simp [removeEntry] at h
  | cons hd tl ih =>
    obtain ⟨k, w⟩ := hd
    rcases hrem : removeEntry tl key with ⟨r, rest'⟩
    simp only [removeEntry, hrem] at h
    split_ifs at h with hk
    · rw [Prod.mk.injEq, Option.some.injEq] at h
      subst hk
      simp [getVal, h.1]
    · rw [Prod.mk.injEq] at h
      simp only [getVal, if_neg hk]
      exact ih (h.1 ▸ hrem)

theorem try_remove_ok_frame {d : Document} {key : String} {v : Bson}
    {d' : Document} (h : try_remove d key = (.ok v, d')) :
    RemovesExactly d key v d' := by
  rcases hrem : removeEntry d key with ⟨r, rest'⟩
  unfold try_remove at h
  rw [hrem] at h
  cases r with
  | some w =>
    simp only [Prod.mk.injEq, Except.ok.injEq] at h
    obtain ⟨hv, hd'⟩ := h
    subst hv; subst hd'
    exact removeEntry_some hrem
  | none => simp at h

theorem try_remove_error_frame {d : Document} {key : String} {e : AvoError}
    {d' : Document} (h : try_remove d key = (.error e, d')) : d' = d := by
  rcases hrem : removeEntry d key with ⟨r, rest'⟩
  unfold try_remove at h
  rw [hrem] at h
  cases r with
  | some w => simp at h
  | none =>
    simp only [Prod.mk.injEq] at h
    exact h.2.symm.trans (removeEntry_none hrem).1

theorem removeChecked_ok_frame {isTy : Bson → Bool} {ty : String}
    {d : Document} {key : String} {v : Bson} {d' : Document}
    (h : removeChecked isTy ty d key = (.ok v, d')) :
    RemovesExactly d key v d' := by
  unfold removeChecked at h
  cases hg : getChecked isTy d key with
  | none => rw [hg] at h; exact try_remove_ok_frame h
  | some cause => rw [hg] at h; simp [removal_error] at h

theorem removeChecked_error_frame {isTy : Bson → Bool} {ty : String}
    {d : Document} {key : String} {e : AvoError} {d' : Document}
    (h : removeChecked isTy ty d key = (.error e, d')) : d' = d := by
  unfold removeChecked at h
  cases hg : getChecked isTy d key with
  | none => rw [hg] at h; exact try_remove_error_frame h
  | some cause =>
    rw [hg] at h
    simp only [removal_error, Prod.mk.injEq] at h
    exact h.2.symm

theorem remove_number_ok_frame {d : Document} {key : String} {v : Bson}
    {d' : Document} (h : remove_number d key = (.ok v, d')) :
    RemovesExactly d key v d' := by
  unfold remove_number at h
  split at h
  next x d1 heq1 =>
    simp only [Prod.mk.injEq, Except.ok.injEq] at h
    obtain ⟨hx, hd⟩ := h
    subst hx; subst hd
    exact removeChecked_ok_frame heq1
  next e1 d1 heq1 =>
    have hd1 : d1 = d := removeChecked_error_frame heq1
    split at h
    next x d2 heq2 =>
      simp only [Prod.mk.injEq, Except.ok.injEq] at h
      obtain ⟨hx, hd⟩ := h
      subst hx; subst hd
      exact hd1 ▸ removeChecked_ok_frame heq2
    next e2 d2 heq2 =>
      have hd2 : d2 = d1 := removeChecked_error_frame heq2
      split at h
      next x d3 heq3 =>
        simp only [Prod.mk.injEq, Except.ok.injEq] at h
        obtain ⟨hx, hd⟩ := h
        subst hx; subst hd
        exact hd1 ▸ hd2 ▸ removeChecked_ok_frame heq3
      next e3 d3 heq3 =>
        simp [removal_error] at h

theorem remove_number_error_frame {d : Document} {key : String} {e : AvoError}
    {d' : Document} (h : remove_number d key = (.error e, d')) : d' = d := by
  unfold remove_number at h
  split at h
  next x d1 heq1 => simp at h
  next e1 d1 heq1 =>
    have hd1 : d1 = d := removeChecked_error_frame heq1
    split at h
    next x d2 heq2 => simp at h
    next e2 d2 heq2 =>
      have hd2 : d2 = d1 := removeChecked_error_frame heq2
      split at h
      next x d3 heq3 => simp at h
      next e3 d3 heq3 =>
        have hd3 : d3 = d2 := removeChecked_error_frame heq3
        simp only [removal_error, Prod.mk.injEq] at h
        exact h.2.symm.trans (hd3.trans (hd2.trans hd1))

theorem remove_inner_doc_ok_frame {d : Document} {key : String}
    {inner : Document} {d' : Document}
    (h : remove_inner_doc d key = (.ok inner, d')) :
    RemovesExactly d key (Bson.document inner) d' := by
  unfold remove_inner_doc at h
  rcases hrem : removeEntry d key with ⟨r, rest'⟩
  rw [hrem] at h
  cases r with
  | none => simp [removal_error] at h
  | some v =>
    cases v
    case document x =>
      simp only [Prod.mk.injEq, Except.ok.injEq] at h
      obtain ⟨hx, hd'⟩ := h
      subst hx; subst hd'
      exact removeEntry_some hrem
    all_goals simp [removal_error] at h

theorem remove_inner_doc_error_cases {d : Document} {key : String}
    {e : AvoError} {d' : Document}
    (h : remove_inner_doc d key = (.error e, d')) :
    (getVal d key = none ∧ d' = d)
    ∨ ∃ v, getVal d key = some v ∧ Bson.isDocument v = false
        ∧ RemovesExactly d key v d' := by
  unfold remove_inner_doc at h
  rcases hrem : removeEntry d key with ⟨r, rest'⟩
  rw [hrem] at h
  cases r with
  | none =>
    simp only [removal_error, Prod.mk.injEq] at h
    obtain ⟨hn, hg⟩ := removeEntry_none hrem
    exact Or.inl ⟨hg, h.2.symm.trans hn⟩
  | some v =>
    cases v
    case document x => simp at h
    all_goals
      rw [Prod.mk.injEq] at h
      exact Or.inr ⟨_, getVal_of_removeEntry_some hrem, rfl,
        h.2 ▸ removeEntry_some hrem⟩

theorem buildIdsGo_eq_total {Id : Type} (decode : Bson → Option Id)
    (pairs : List (Int × Bson)) :
    ∀ acc, (∀ p ∈ pairs, 0 ≤ p.1) →
      buildIdsGo decode acc pairs = .ok (buildIdsTotalGo decode acc pairs) := by
  induction pairs with
  | nil => intro acc _; rfl
  | cons hd tl ih =>
    intro acc h
    obtain ⟨i, b⟩ := hd
    have hi : 0 ≤ i := h (i, b) (List.mem_cons_self _ _)
    simp only [buildIdsGo, buildIdsTotalGo, if_pos hi]
    exact ih _ (fun p hp => h p (List.mem_cons_of_mem _ hp))

theorem collectIds_of_allDecoded {Id : Type} (ids : IdsMap Id)
    (h : allDecoded ids = true) : collectIds ids = .ok (decodedOf ids) := by
  induction ids with
  | nil => rfl
  | cons hd tl ih =>
    obtain ⟨i, s⟩ := hd
    cases s with
    | inl id =>
      have htl : allDecoded tl = true := by
        simpa [allDecoded] using h
      simp [collectIds, decodedOf, ih htl]
    | inr b => simp [allDecoded] at h

theorem collectIds_error_of_not_allDecoded {Id : Type} (ids : IdsMap Id)
    (h : allDecoded ids = false) : ∃ b, collectIds ids = .error b := by
  induction ids with
  | nil => simp [allDecoded] at h
  | cons hd tl ih =>
    obtain ⟨i, s⟩ := hd
    cases s with
    | inl id =>
      have htl : allDecoded tl = false := by
        simpa [allDecoded] using h
      obtain ⟨b, hb⟩ := ih htl
      exact ⟨b, by simp [collectIds, hb]⟩
    | inr b => exact ⟨b, rfl⟩

/-! ## Claim theorems -/

/-- C7: `insert_many` applied to an empty sequence of entities returns
success with an empty position-to-identifier mapping and issues no remote
call to the store (the issued-calls list is empty), for every store. -/
theorem insert_many_empty_succeeds_without_store_call {α : Type} (Id : Type)
    (decode : Bson → Option Id) (serialize : α → Except AvoError Document)
    (name : String) (store : List Document → InsertManyRawResult) :
    insert_many Id decode serialize name [] store = (.ok (.ok []), []) := rfl

/-- C9: for every operation value implementing any of the eight operation
traits (Count, Distinct, Pipeline, Query, Update, Upsert, Delete,
FindAndUpdate), the reference (`&Q`) implementation yields exactly the same
result for every method — filter, update/upsert spec, stages, transform,
options, `FIELD` — and the same associated `Output` type (the type
parameter, preserved by construction). -/
theorem ref_impls_delegate_unchanged :
    (∀ q : CountOps, refCountOps q = q)
    ∧ (∀ (O : Type) (q : DistinctOps O), refDistinctOps O q = q)
    ∧ (∀ (O : Type) (q : PipelineOps O), refPipelineOps O q = q)
    ∧ (∀ (O : Type) (q : QueryOps O), refQueryOps O q = q)
    ∧ (∀ q : UpdateOps, refUpdateOps q = q)
    ∧ (∀ q : UpsertOps, refUpsertOps q = q)
    ∧ (∀ q : DeleteOps, refDeleteOps q = q)
    ∧ (∀ (O : Type) (q : FindAndUpdateOps O), refFindAndUpdateOps O q = q) :=
  ⟨fun _ => rfl, fun _ _ => rfl, fun _ _ => rfl, fun _ _ => rfl,
   fun _ => rfl, fun _ => rfl, fun _ => rfl, fun _ _ => rfl⟩

/-- C8: `remove_i32` fails with the `IllTypedDocumentField` kind (cause
`UnexpectedType`) when the key is present but holds a non-i32 value, and
with the `MissingDocumentField` kind (cause `NotPresent`) when the key is
absent; the two kinds are distinct, so the conditions are never merged. -/
theorem remove_i32_distinguishes_missing_from_ill_typed (d : Document)
    (key : String) :
    (∀ v, getVal d key = some v → v.isI32 = false →
      (remove_i32 d key).1 =
        .error { kind := .IllTypedDocumentField
                 message := "error removing i32 value for key `" ++ key ++ "`"
                 cause := some (.valueAccess .UnexpectedType) })
    ∧ (getVal d key = none →
      (remove_i32 d key).1 =
        .error { kind := .MissingDocumentField
                 message := "error removing i32 value for key `" ++ key ++ "`"
                 cause := some (.valueAccess .NotPresent) })
    ∧ ErrorKind.IllTypedDocumentField ≠ ErrorKind.MissingDocumentField := by
  refine ⟨?_, ?_, by decide⟩
  · intro v hv hty
    simp [remove_i32, removeChecked, getChecked, hv, hty, removal_error,
      kindOfAccessError]
  · intro hv
    simp [remove_i32, removeChecked, getChecked, hv, removal_error,
      kindOfAccessError]

/-- Witness for C8 at concrete inputs: a key holding a string value, and an
absent key. -/
theorem remove_i32_distinguishes_missing_from_ill_typed_witness :
    (remove_i32 [("k", Bson.string "x")] "k").1 =
      .error { kind := .IllTypedDocumentField
               message := "error removing i32 value for key `k`"
               cause := some (.valueAccess .UnexpectedType) }
    ∧ (remove_i32 [] "a").1 =
      .error { kind := .MissingDocumentField
               message := "error removing i32 value for key `a`"
               cause := some (.valueAccess .NotPresent) } :=
  ⟨(remove_i32_distinguishes_missing_from_ill_typed [("k", Bson.string "x")]
      "k").1 (Bson.string "x") rfl rfl,
   (remove_i32_distinguishes_missing_from_ill_typed [] "a").2.1 rfl⟩

/-- C6: every `find_one_and_replace` call issued to the store carries
`return_document = Some(Before)` (so the post-replacement document is never
returned) and `upsert = Some(false)` (so nothing is inserted when no
document matches), for every query, options and replacement. -/
theorem find_one_and_replace_requests_before_no_upsert (Out : Type)
    (filter : Document) (query_options : FindOptions)
    (transform : Document → Except AvoError Bson)
    (deserialize : Bson → Except AvoError Out)
    (serializedReplacement : Except AvoError Document)
    (store : FindOneAndReplaceCall → Option Document) :
    ∀ c ∈ (find_one_and_replace Out filter query_options transform deserialize
        serializedReplacement store).2,
      c.options.return_document = some ReturnDocument.Before
        ∧ c.options.upsert = some false := by
  intro c hc
  cases serializedReplacement with
  | error e => simp [find_one_and_replace] at hc
  | ok doc =>
    simp only [find_one_and_replace, List.mem_singleton] at hc
    subst hc
    exact ⟨rfl, rfl⟩

/-- Witness for C6 at a concrete query and replacement. -/
theorem find_one_and_replace_requests_before_no_upsert_witness :
    (FindOneAndReplaceCall.mk [] []
      { return_document := some ReturnDocument.Before, max_time_ms := none,
        projection := none, sort := none, upsert := some false,
        write_concern := none }).options.return_document
      = some ReturnDocument.Before
    ∧ (FindOneAndReplaceCall.mk [] []
      { return_document := some ReturnDocument.Before, max_time_ms := none,
        projection := none, sort := none, upsert := some false,
        write_concern := none }).options.upsert = some false :=
  find_one_and_replace_requests_before_no_upsert Unit [] ⟨none, none, none⟩
    (fun d => .ok (.document d)) (fun _ => .ok ()) (.ok [])
    (fun _ => none) _ (List.Mem.head _)

/-- C5: an entity whose serialized document has no `_id` field makes
`replace_entity` (and `upsert_entity`) fail with the `MissingId` kind
without issuing any store call. -/
theorem entity_without_id_fails_without_store_call (Id : Type)
    (decode : Bson → Option Id) (name : String) (concern : WriteConcern)
    (d : Document) (store store' : ReplaceOneCall → UpdateResult)
    (h : getVal d "_id" = none) :
    replace_entity name concern (.ok d) store =
      (.error { kind := .MissingId
                message := "No `_id` in entity of type " ++ name
                cause := none }, [])
    ∧ upsert_entity Id decode name concern (.ok d) store' =
      (.error { kind := .MissingId
                message := "No `_id` in entity of type " ++ name
                cause := none }, []) := by
  have hrem := removeEntry_of_getVal_none h
  constructor
  · simp [replace_entity, update_entity_internal, hrem, Except.bind]
  · simp [upsert_entity, update_entity_internal, hrem, Except.bind]

/-- Witness for C5 at a concrete serialized entity lacking `_id`. -/
theorem entity_without_id_fails_without_store_call_witness :
    replace_entity "Item" ⟨0⟩ (.ok [("x", Bson.boolean true)])
      (fun _ => ⟨0, 0, none, none⟩) =
      (.error { kind := .MissingId
                message := "No `_id` in entity of type Item"
                cause := none }, [])
    ∧ upsert_entity Int bsonIdDecode "Item" ⟨0⟩
      (.ok [("x", Bson.boolean true)]) (fun _ => ⟨0, 0, none, none⟩) =
      (.error { kind := .MissingId
                message := "No `_id` in entity of type Item"
                cause := none }, []) :=
  entity_without_id_fails_without_store_call Int bsonIdDecode "Item" ⟨0⟩
    [("x", Bson.boolean true)] (fun _ => ⟨0, 0, none, none⟩)
    (fun _ => ⟨0, 0, none, none⟩) rfl

/-- C4: `replace_entity` always issues its `replace_one` with the upsert
flag `false` and `upsert_entity` with the flag `true`; when the store
matches nothing (counts 0, no exception) `replace_entity` reports
`matched = false, modified = false`; when the store reports an upserted
document whose `_id` decodes, `upsert_entity` reports that identifier. -/
theorem replace_upsert_entity_flags_and_outcomes (Id : Type)
    (decode : Bson → Option Id) (name : String) (concern : WriteConcern) :
    (∀ (ser : Except AvoError Document) (store : ReplaceOneCall → UpdateResult),
      ∀ c ∈ (replace_entity name concern ser store).2,
        c.options.upsert = some false)
    ∧ (∀ (ser : Except AvoError Document) (store : ReplaceOneCall → UpdateResult),
      ∀ c ∈ (upsert_entity Id decode name concern ser store).2,
        c.options.upsert = some true)
    ∧ (∀ (d d' : Document) (id : Bson) (store : ReplaceOneCall → UpdateResult),
      removeEntry d "_id" = (some id, d') →
      (∀ c, store c = ⟨0, 0, none, none⟩) →
      (replace_entity name concern (.ok d) store).1 = .ok ⟨false, false⟩)
    ∧ (∀ (d d' : Document) (id : Bson) (m mo : Int) (b : Bson) (uid : Id)
        (store : ReplaceOneCall → UpdateResult),
      removeEntry d "_id" = (some id, d') →
      (∀ c, store c = ⟨m, mo, some (.document [("_id", b)]), none⟩) →
      decode b = some uid →
      (upsert_entity Id decode name concern (.ok d) store).1 =
        .ok ⟨decide (0 < m), decide (0 < mo), some uid⟩) := by
  refine ⟨?_, ?_, ?_, ?_⟩
  · intro ser store c hc
    cases ser with
    | error e => simp [replace_entity, update_entity_internal] at hc
    | ok d =>
      rcases hrem : removeEntry d "_id" with ⟨r, d'⟩
      cases r with
      | none => simp [replace_entity, update_entity_internal, hrem] at hc
      | some id =>
        simp only [replace_entity, update_entity_internal, hrem,
          List.mem_singleton] at hc
        subst hc
        rfl
  · intro ser store c hc
    cases ser with
    | error e => simp [upsert_entity, update_entity_internal] at hc
    | ok d =>
      rcases hrem : removeEntry d "_id" with ⟨r, d'⟩
      cases r with
      | none => simp [upsert_entity, update_entity_internal, hrem] at hc
      | some id =>
        simp only [upsert_entity, update_entity_internal, hrem,
          List.mem_singleton] at hc
        subst hc
        rfl
  · intro d d' id store hrem hstore
    simp [replace_entity, update_entity_internal, hrem, hstore,
      checkWriteException, UpdateOneResult.from_raw, Except.bind]
  · intro d d' id m mo b uid store hrem hstore hdec
    simp [upsert_entity, update_entity_internal, hrem, hstore,
      checkWriteException, UpsertOneResult.from_raw, processUpserted,
      try_into_doc, removeEntry, hdec, Except.bind, Bind.bind]

/-- Witness for C4 at a concrete entity and two concrete store behaviours
(no match for replace; an upserted document for upsert). -/
theorem replace_upsert_entity_flags_and_outcomes_witness :
    (ReplaceOneCall.mk [("_id", Bson.i32 7)] [("x", Bson.boolean true)]
      ⟨some false, some ⟨0⟩⟩).options.upsert = some false
    ∧ (ReplaceOneCall.mk [("_id", Bson.i32 7)] [("x", Bson.boolean true)]
      ⟨some true, some ⟨0⟩⟩).options.upsert = some true
    ∧ (replace_entity "Item" ⟨0⟩
        (.ok [("_id", Bson.i32 7), ("x", Bson.boolean true)])
        (fun _ => ⟨0, 0, none, none⟩)).1 = .ok ⟨false, false⟩
    ∧ (upsert_entity Int bsonIdDecode "Item" ⟨0⟩
        (.ok [("_id", Bson.i32 7), ("x", Bson.boolean true)])
        (fun _ => ⟨0, 0, some (.document [("_id", Bson.i32 9)]), none⟩)).1 =
      .ok ⟨false, false, some 9⟩ :=
  ⟨(replace_upsert_entity_flags_and_outcomes Int bsonIdDecode "Item" ⟨0⟩).1
      (.ok [("_id", Bson.i32 7), ("x", Bson.boolean true)])
      (fun _ => ⟨0, 0, none, none⟩) _ (List.Mem.head _),
   (replace_upsert_entity_flags_and_outcomes Int bsonIdDecode "Item" ⟨0⟩).2.1
      (.ok [("_id", Bson.i32 7), ("x", Bson.boolean true)])
      (fun _ => ⟨0, 0, none, none⟩) _ (List.Mem.head _),
   (replace_upsert_entity_flags_and_outcomes Int bsonIdDecode "Item" ⟨0⟩).2.2.1
      [("_id", Bson.i32 7), ("x", Bson.boolean true)] [("x", Bson.boolean true)]
      (Bson.i32 7) (fun _ => ⟨0, 0, none, none⟩) rfl (fun _ => rfl),
   (replace_upsert_entity_flags_and_outcomes Int bsonIdDecode "Item" ⟨0⟩).2.2.2
      [("_id", Bson.i32 7), ("x", Bson.boolean true)] [("x", Bson.boolean true)]
      (Bson.i32 7) 0 0 (Bson.i32 9) 9
      (fun _ => ⟨0, 0, some (.document [("_id", Bson.i32 9)]), none⟩)
      rfl (fun _ => rfl) rfl⟩

/-- C3 counterexample: a raw update result that carries a write exception
*and* a malformed `upserted_id` (a document without an `_id` field).
`UpsertOneResult::from_raw` reports the `MissingId` error with no cause —
the write exception is dropped, contradicting the claim that it is always
surfaced by the conversion. -/
theorem upsert_from_raw_drops_write_exception_on_malformed_id :
    (UpdateResult.mk 1 0 (some (Bson.document [])) (some ⟨"boom"⟩)).write_exception
      = some ⟨"boom"⟩
    ∧ UpsertOneResult.from_raw Int bsonIdDecode
        (UpdateResult.mk 1 0 (some (Bson.document [])) (some ⟨"boom"⟩))
      = .error { kind := .MissingId
                 message := "no `_id` found in `WriteResult.upserted`"
                 cause := none } :=
  ⟨rfl, rfl⟩

/-- C3 amended: `UpdateOneResult::from_raw` always surfaces an embedded
write exception; `UpsertOneResult::from_raw` surfaces it whenever the
`upserted_id` processing succeeds (in particular whenever the field is
absent); and the façade's `upsert_one` path surfaces it unconditionally,
because `update_one_internal` checks the write exception before the raw
result reaches `from_raw`. -/
theorem write_exception_surfacing_amended (Id : Type)
    (decode : Bson → Option Id) :
    (∀ (r : UpdateResult) (e : WriteFailure), r.write_exception = some e →
      UpdateOneResult.from_raw r =
        .error { kind := .InfrastructureFailure
                 message := "couldn't perform single update"
                 cause := some (.write e) })
    ∧ (∀ (r : UpdateResult) (e : WriteFailure) (v : Option Id),
      r.write_exception = some e →
      processUpserted Id decode r.upserted_id = .ok v →
      UpsertOneResult.from_raw Id decode r =
        .error { kind := .InfrastructureFailure
                 message := "couldn't perform single upsert"
                 cause := some (.write e) })
    ∧ (∀ (msg : String) (r : UpdateResult) (e : WriteFailure),
      r.write_exception = some e →
      upsert_one_process Id decode msg r =
        .error { kind := .InfrastructureFailure
                 message := msg
                 cause := some (.write e) }) := by
  refine ⟨?_, ?_, ?_⟩
  · intro r e he
    simp [UpdateOneResult.from_raw, he]
  · intro r e v he hp
    simp [UpsertOneResult.from_raw, hp, he, Except.bind, Bind.bind]
  · intro msg r e he
    simp [upsert_one_process, checkWriteException, he, Except.bind, Bind.bind]

/-- Witness for the amended C3 at a concrete raw result carrying a write
exception and no upserted document. -/
theorem write_exception_surfacing_amended_witness :
    UpdateOneResult.from_raw ⟨2, 1, none, some ⟨"w"⟩⟩ =
      .error { kind := .InfrastructureFailure
               message := "couldn't perform single update"
               cause := some (.write ⟨"w"⟩) }
    ∧ UpsertOneResult.from_raw Int bsonIdDecode ⟨2, 1, none, some ⟨"w"⟩⟩ =
      .error { kind := .InfrastructureFailure
               message := "couldn't perform single upsert"
               cause := some (.write ⟨"w"⟩) }
    ∧ upsert_one_process Int bsonIdDecode "m" ⟨2, 1, none, some ⟨"w"⟩⟩ =
      .error { kind := .InfrastructureFailure
               message := "m"
               cause := some (.write ⟨"w"⟩) } :=
  ⟨(write_exception_surfacing_amended Int bsonIdDecode).1 _ _ rfl,
   (write_exception_surfacing_amended Int bsonIdDecode).2.1 _ _ none rfl rfl,
   (write_exception_surfacing_amended Int bsonIdDecode).2.2 "m" _ _ rfl⟩

/-- C2 counterexample: when the store's bulk-insert result reports a
negative position index, `insert_many` aborts the process through its
`assert!` instead of returning an error value. -/
theorem insert_many_aborts_on_negative_index :
    (insert_many Int bsonIdDecode (fun _ : Unit => .ok []) "Item" [()]
      (fun _ => ⟨some [(-1, Bson.i32 0)], none⟩)).1.isPanicked = true := rfl

/-- C2 amended: every operation of the embedding is a total function
returning a typed result; the single aborting path is `insert_many`'s
index assertion, and whenever every index the store reports is
non-negative, `insert_many` does not abort either. -/
theorem insert_many_no_abort_on_nonneg_indices {α : Type} (Id : Type)
    (decode : Bson → Option Id) (serialize : α → Except AvoError Document)
    (name : String) (entities : List α)
    (store : List Document → InsertManyRawResult)
    (hidx : ∀ docs, serializeDocuments serialize entities = .ok docs →
      ∀ p ∈ (store docs).inserted_ids.getD [], 0 ≤ p.1) :
    (insert_many Id decode serialize name entities store).1.isPanicked = false := by
  cases hser : serializeDocuments serialize entities with
  | error e => simp [insert_many, hser, PanicOr.isPanicked]
  | ok docs =>
    by_cases hn : entities.length = 0
    · simp [insert_many, hser, hn, PanicOr.isPanicked]
    · have hbuild : buildIds decode ((store docs).inserted_ids.getD []) =
          .ok (buildIdsTotal decode ((store docs).inserted_ids.getD [])) :=
        buildIdsGo_eq_total decode _ [] (hidx docs hser)
      simp only [insert_many, hser, if_neg hn, processInsertMany, hbuild]
      cases hexc : (store docs).bulk_write_exception with
      | some error => simp [PanicOr.isPanicked]
      | none =>
        by_cases hc :
            (buildIdsTotal decode ((store docs).inserted_ids.getD [])).length
              = entities.length
        · cases hcoll :
              collectIds (buildIdsTotal decode ((store docs).inserted_ids.getD []))
            with
          | ok m => simp [hc, hcoll, PanicOr.isPanicked]
          | error b => simp [hc, hcoll, PanicOr.isPanicked]
        · simp [hc, PanicOr.isPanicked]

/-- Witness for the amended C2 at a store reporting only non-negative
indices. -/
theorem insert_many_no_abort_on_nonneg_indices_witness :
    (insert_many Int bsonIdDecode (fun _ : Unit => .ok []) "Item" [()]
      (fun _ => ⟨some [(0, Bson.i32 5)], none⟩)).1.isPanicked = false :=
  insert_many_no_abort_on_nonneg_indices Int bsonIdDecode _ "Item" [()] _
    (fun _ _ => by decide)

/-- C1: for a non-empty entity list (with successful serialization and
non-negative reported indices, so the assertion does not abort),
`insert_many` builds the position → identifier map from the store-reported
identifiers (raw values kept for undecodable ones) and settles into exactly
one of the four mutually-exclusive cases: (1) a reported bulk write
exception fails the call with that exception as cause and the partial map
attached as context; (2) one identifier per document, all decoded: success
with the fully decoded map; (3) one identifier per document but some
undecodable: failure with the `BsonDecoding` kind and the mixed map
attached; (4) a count mismatch: failure with the `MissingId` kind and the
map attached. In every case the bulk insert was issued exactly once. -/
theorem insert_many_nonempty_case_analysis {α : Type} (Id : Type)
    (decode : Bson → Option Id) (serialize : α → Except AvoError Document)
    (name : String) (entities : List α)
    (store : List Document → InsertManyRawResult) (docs : List Document)
    (hn : entities ≠ [])
    (hser : serializeDocuments serialize entities = .ok docs)
    (hidx : ∀ p ∈ (store docs).inserted_ids.getD [], 0 ≤ p.1) :
    (∀ error, (store docs).bulk_write_exception = some error →
      insert_many Id decode serialize name entities store =
        (.ok (.error
          { err := { kind := .InfrastructureFailure
                     message := "error in " ++ name ++ "::insert_many()"
                     cause := some (.bulkWrite error) }
            context := some (buildIdsTotal decode
              ((store docs).inserted_ids.getD [])) }), [docs]))
    ∧ ((store docs).bulk_write_exception = none →
       (buildIdsTotal decode ((store docs).inserted_ids.getD [])).length
         = entities.length →
       allDecoded (buildIdsTotal decode ((store docs).inserted_ids.getD []))
         = true →
      insert_many Id decode serialize name entities store =
        (.ok (.ok (decodedOf (buildIdsTotal decode
          ((store docs).inserted_ids.getD [])))), [docs]))
    ∧ ((store docs).bulk_write_exception = none →
       (buildIdsTotal decode ((store docs).inserted_ids.getD [])).length
         = entities.length →
       allDecoded (buildIdsTotal decode ((store docs).inserted_ids.getD []))
         = false →
      insert_many Id decode serialize name entities store =
        (.ok (.error
          { err := { kind := .BsonDecoding
                     message := ("error in " ++ name ++ "::insert_many()")
                       ++ ": can't deserialize some IDs"
                     cause := none }
            context := some (buildIdsTotal decode
              ((store docs).inserted_ids.getD [])) }), [docs]))
    ∧ ((store docs).bulk_write_exception = none →
       (buildIdsTotal decode ((store docs).inserted_ids.getD [])).length
         ≠ entities.length →
      insert_many Id decode serialize name entities store =
        (.ok (.error
          { err := { kind := .MissingId
                     message := ("error in " ++ name ++ "::insert_many()")
                       ++ ": " ++ toString entities.length
                       ++ " documents given, but "
                       ++ toString (buildIdsTotal decode
                            ((store docs).inserted_ids.getD [])).length
                       ++ " IDs returned"
                     cause := none }
            context := some (buildIdsTotal decode
              ((store docs).inserted_ids.getD [])) }), [docs])) := by
  have hlen : ¬ entities.length = 0 := by
    intro h
    exact hn (List.length_eq_zero.mp h)
  have hbuild : buildIds decode ((store docs).inserted_ids.getD []) =
      .ok (buildIdsTotal decode ((store docs).inserted_ids.getD [])) :=
    buildIdsGo_eq_total decode _ [] hidx
  have hmain : insert_many Id decode serialize name entities store =
      (processInsertMany Id decode name entities.length (store docs), [docs]) := by
    simp only [insert_many, hser, if_neg hlen]
  refine ⟨?_, ?_, ?_, ?_⟩
  · intro error hexc
    rw [hmain]
    simp only [processInsertMany, hbuild, hexc]
  · intro hexc hcount hdec
    rw [hmain]
    simp only [processInsertMany, hbuild, hexc, if_pos hcount,
      collectIds_of_allDecoded _ hdec]
  · intro hexc hcount hdec
    obtain ⟨b, hb⟩ := collectIds_error_of_not_allDecoded _ hdec
    rw [hmain]
    simp only [processInsertMany, hbuild, hexc, if_pos hcount, hb]
  · intro hexc hcount
    rw [hmain]
    simp only [processInsertMany, hbuild, hexc, if_neg hcount]

/-- Witness for C1 at a concrete two-entity insert where the store reports
two decodable identifiers (the all-decoded success case). -/
theorem insert_many_nonempty_case_analysis_witness :
    insert_many Int bsonIdDecode (fun n : Int => .ok [("x", Bson.i64 n)])
      "Item" [1, 2] (fun _ => ⟨some [(0, Bson.i32 10), (1, Bson.i32 20)], none⟩)
      = (.ok (.ok [(0, 10), (1, 20)]),
         ([[[("x", Bson.i64 1)], [("x", Bson.i64 2)]]] : List (List Document))) :=
  (insert_many_nonempty_case_analysis Int bsonIdDecode
      (fun n : Int => .ok [("x", Bson.i64 n)]) "Item" [1, 2]
      (fun _ => ⟨some [(0, Bson.i32 10), (1, Bson.i32 20)], none⟩)
      [[("x", Bson.i64 1)], [("x", Bson.i64 2)]]
      (by decide) rfl (by decide)).2.1 rfl rfl rfl

/-- C10 counterexample: `remove_inner_doc` on a key holding a non-document
value removes the entry and then fails — the document is mutated on a
failure path, so the helpers are not all frame-preserving on failure. -/
theorem remove_inner_doc_mutates_on_ill_typed_failure :
    (remove_inner_doc [("k", Bson.i32 1)] "k").2 = []
    ∧ (remove_inner_doc [("k", Bson.i32 1)] "k").1 =
        .error { kind := .IllTypedDocumentField
                 message := "error removing document value for key `k`"
                 cause := some (.valueAccess .UnexpectedType) }
    ∧ ([] : Document) ≠ [("k", Bson.i32 1)] :=
  ⟨rfl, rfl, by simp⟩

/-- C10 amended: every removal helper except `remove_inner_doc` is atomic
and frame-preserving — on success it removes exactly the requested key's
binding (returning its former value) and keeps every other binding in
order; on failure it leaves the document unchanged. `remove_inner_doc` has
the same success behaviour and leaves the document unchanged when the key
is missing, but on a present-yet-ill-typed value it removes (and drops) the
entry while reporting the failure. -/
theorem removal_helpers_frame_properties :
    ((∀ (d : Document) (key : String) (v : Bson) (d' : Document),
        try_remove d key = (.ok v, d') → RemovesExactly d key v d')
      ∧ (∀ (d : Document) (key : String) (e : AvoError) (d' : Document),
        try_remove d key = (.error e, d') → d' = d))
    ∧ ((∀ (d : Document) (key : String) (v : Bson) (d' : Document),
        remove_bool d key = (.ok v, d') → RemovesExactly d key v d')
      ∧ (∀ (d : Document) (key : String) (e : AvoError) (d' : Document),
        remove_bool d key = (.error e, d') → d' = d))
    ∧ ((∀ (d : Document) (key : String) (v : Bson) (d' : Document),
        remove_i32 d key = (.ok v, d') → RemovesExactly d key v d')
      ∧ (∀ (d : Document) (key : String) (e : AvoError) (d' : Document),
        remove_i32 d key = (.error e, d') → d' = d))
    ∧ ((∀ (d : Document) (key : String) (v : Bson) (d' : Document),
        remove_i64 d key = (.ok v, d') → RemovesExactly d key v d')
      ∧ (∀ (d : Document) (key : String) (e : AvoError) (d' : Document),
        remove_i64 d key = (.error e, d') → d' = d))
    ∧ ((∀ (d : Document) (key : String) (v : Bson) (d' : Document),
        remove_f64 d key = (.ok v, d') → RemovesExactly d key v d')
      ∧ (∀ (d : Document) (key : String) (e : AvoError) (d' : Document),
        remove_f64 d key = (.error e, d') → d' = d))
    ∧ ((∀ (d : Document) (key : String) (v : Bson) (d' : Document),
        remove_number d key = (.ok v, d') → RemovesExactly d key v d')
      ∧ (∀ (d : Document) (key : String) (e : AvoError) (d' : Document),
        remove_number d key = (.error e, d') → d' = d))
    ∧ ((∀ (d : Document) (key : String) (v : Bson) (d' : Document),
        remove_str d key = (.ok v, d') → RemovesExactly d key v d')
      ∧ (∀ (d : Document) (key : String) (e : AvoError) (d' : Document),
        remove_str d key = (.error e, d') → d' = d))
    ∧ ((∀ (d : Document) (key : String) (v : Bson) (d' : Document),
        remove_array d key = (.ok v, d') → RemovesExactly d key v d')
      ∧ (∀ (d : Document) (key : String) (e : AvoError) (d' : Document),
        remove_array d key = (.error e, d') → d' = d))
    ∧ ((∀ (d : Document) (key : String) (v : Bson) (d' : Document),
        remove_document d key = (.ok v, d') → RemovesExactly d key v d')
      ∧ (∀ (d : Document) (key : String) (e : AvoError) (d' : Document),
        remove_document d key = (.error e, d') → d' = d))
    ∧ ((∀ (d : Document) (key : String) (v : Bson) (d' : Document),
        remove_object_id d key = (.ok v, d') → RemovesExactly d key v d')
      ∧ (∀ (d : Document) (key : String) (e : AvoError) (d' : Document),
        remove_object_id d key = (.error e, d') → d' = d))
    ∧ ((∀ (d : Document) (key : String) (v : Bson) (d' : Document),
        remove_datetime d key = (.ok v, d') → RemovesExactly d key v d')
      ∧ (∀ (d : Document) (key : String) (e : AvoError) (d' : Document),
        remove_datetime d key = (.error e, d') → d' = d))
    ∧ ((∀ (d : Document) (key : String) (v : Bson) (d' : Document),
        remove_timestamp d key = (.ok v, d') → RemovesExactly d key v d')
      ∧ (∀ (d : Document) (key : String) (e : AvoError) (d' : Document),
        remove_timestamp d key = (.error e, d') → d' = d))
    ∧ ((∀ (d : Document) (key : String) (v : Bson) (d' : Document),
        remove_generic_binary d key = (.ok v, d') → RemovesExactly d key v d')
      ∧ (∀ (d : Document) (key : String) (e : AvoError) (d' : Document),
        remove_generic_binary d key = (.error e, d') → d' = d))
    ∧ ((∀ (d : Document) (key : String) (inner : Document) (d' : Document),
        remove_inner_doc d key = (.ok inner, d') →
          RemovesExactly d key (Bson.document inner) d')
      ∧ (∀ (d : Document) (key : String) (e : AvoError) (d' : Document),
        remove_inner_doc d key = (.error e, d') →
          (getVal d key = none ∧ d' = d)
          ∨ ∃ v, getVal d key = some v ∧ Bson.isDocument v = false
              ∧ RemovesExactly d key v d')) :=
  ⟨⟨fun _ _ _ _ h => try_remove_ok_frame h,
    fun _ _ _ _ h => try_remove_error_frame h⟩,
   ⟨fun _ _ _ _ h => removeChecked_ok_frame h,
    fun _ _ _ _ h => removeChecked_error_frame h⟩,
   ⟨fun _ _ _ _ h => removeChecked_ok_frame h,
    fun _ _ _ _ h => removeChecked_error_frame h⟩,
   ⟨fun _ _ _ _ h => removeChecked_ok_frame h,
    fun _ _ _ _ h => removeChecked_error_frame h⟩,
   ⟨fun _ _ _ _ h => removeChecked_ok_frame h,
    fun _ _ _ _ h => removeChecked_error_frame h⟩,
   ⟨fun _ _ _ _ h => remove_number_ok_frame h,
    fun _ _ _ _ h => remove_number_error_frame h⟩,
   ⟨fun _ _ _ _ h => removeChecked_ok_frame h,
    fun _ _ _ _ h => removeChecked_error_frame h⟩,
   ⟨fun _ _ _ _ h => removeChecked_ok_frame h,
    fun _ _ _ _ h => removeChecked_error_frame h⟩,
   ⟨fun _ _ _ _ h => removeChecked_ok_frame h,
    fun _ _ _ _ h => removeChecked_error_frame h⟩,
   ⟨fun _ _ _ _ h => removeChecked_ok_frame h,
    fun _ _ _ _ h => removeChecked_error_frame h⟩,
   ⟨fun _ _ _ _ h => removeChecked_ok_frame h,
    fun _ _ _ _ h => removeChecked_error_frame h⟩,
   ⟨fun _ _ _ _ h => removeChecked_ok_frame h,
    fun _ _ _ _ h => removeChecked_error_frame h⟩,
   ⟨fun _ _ _ _ h => removeChecked_ok_frame h,
    fun _ _ _ _ h => removeChecked_error_frame h⟩,
   ⟨fun _ _ _ _ h => remove_inner_doc_ok_frame h,
    fun _ _ _ _ h => remove_inner_doc_error_cases h⟩⟩

/-- Witness for the amended C10: a successful `try_remove` removes exactly
the requested binding, and a successful `remove_i32` does likewise. -/
theorem removal_helpers_frame_properties_witness :
    RemovesExactly [("a", Bson.boolean true), ("b", Bson.null)] "b" Bson.null
      [("a", Bson.boolean true)]
    ∧ RemovesExactly [("a", Bson.i32 3)] "a" (Bson.i32 3) [] :=
  ⟨removal_helpers_frame_properties.1.1 _ _ _ _ rfl,
   (removal_helpers_frame_properties.2.2.1).1 _ _ _ _ rfl⟩

end Avocado
